import Mathlib

/-!
Verification of the dashy repository against its natural-language
specification.  The frontend code under ui/app is embedded directly from
the TypeScript source (http-dashy-client.ts together with the JWT helper
module, and pages/bi/data-viz.tsx).  The backend ingestion pipeline and
scoped query gateway (Django app.bi) are not part of the visible source
tree, so those components are modelled from the specification, as marked
on each definition.
-/

namespace Dashy

/-!
## Browser localStorage model

Embedding of the window.localStorage key/value store used by the JWT
helper module.  A store is a list of key/value pairs looked up from the
front, matching getItem/removeItem semantics.
-/

abbrev Storage := List (String × String)

/-- Embeds localStorage.getItem: first pair with the requested key. -/
def getItem : Storage → String → Option String
  | [], _ => none
  | p :: rest, k => if p.1 == k then some p.2 else getItem rest k

/-- Embeds localStorage.removeItem: every pair with the key is dropped. -/
def removeItem : Storage → String → Storage
  | [], _ => []
  | p :: rest, k => if p.1 == k then removeItem rest k else p :: removeItem rest k

/-- Source constant ACCESS_TOKEN_KEY from the JWT helper module. -/
def ACCESS_TOKEN_KEY : String := "access_token"

/-- Source constant REFRESH_TOKEN_KEY from the JWT helper module. -/
def REFRESH_TOKEN_KEY : String := "refresh_token"

/-- Embeds getAccessToken from the JWT helper module. -/
def getAccessToken (s : Storage) : Option String :=
  getItem s ACCESS_TOKEN_KEY

/-- Embeds clearTokens: removes the access token, then the refresh token. -/
def clearTokens (s : Storage) : Storage :=
  removeItem (removeItem s ACCESS_TOKEN_KEY) REFRESH_TOKEN_KEY

theorem getItem_removeItem_self (s : Storage) (k : String) :
    getItem (removeItem s k) k = none := by
  induction s with
  | nil => rfl
  | cons p rest ih =>
    by_cases h : p.1 == k
    · simp [removeItem, h, ih]
    · simp [removeItem, getItem, h, ih]

theorem getItem_removeItem_other (s : Storage) (k k' : String) (h : k ≠ k') :
    getItem (removeItem s k') k = getItem s k := by
  induction s with
  | nil => rfl
  | cons p rest ih =>
    by_cases h1 : p.1 == k'
    · have h2 : (p.1 == k) = false := by
        have : p.1 = k' := by simpa using h1
        simp [this, beq_iff_eq]
        exact fun hk => h hk.symm
      simp [removeItem, getItem, h1, h2, ih]
    · simp [removeItem, getItem, h1, ih]

theorem getItem_clearTokens_access (s : Storage) :
    getItem (clearTokens s) ACCESS_TOKEN_KEY = none := by
  unfold clearTokens
  rw [getItem_removeItem_other _ _ _ (by decide)]
  exact getItem_removeItem_self s ACCESS_TOKEN_KEY

theorem getItem_clearTokens_refresh (s : Storage) :
    getItem (clearTokens s) REFRESH_TOKEN_KEY = none :=
  getItem_removeItem_self _ REFRESH_TOKEN_KEY

/-!
## JavaScript value model

Values produced by JSON.parse, used to embed the JWT payload handling in
isAuthenticated.  Numbers are modelled as integers, which covers every
value relevant to token expiry claims.
-/

inductive JsVal where
  | jNull
  | jBool (b : Bool)
  | jNum (n : Int)
  | jStr (s : String)
  | jArr (elems : List JsVal)
  | jObj (fields : List (String × JsVal))

/-- Embeds JavaScript property access payload.exp.  Reading a property of
null throws a TypeError (modelled as the outer none); objects look the key
up, every other value yields undefined (modelled as some none). -/
def getMember : JsVal → String → Option (Option JsVal)
  | .jNull, _ => none
  | .jObj fields, k => some ((fields.find? (fun p => p.1 == k)).map (fun p => p.2))
  | _, _ => some none

/-- Splits a character list at every occurrence of the separator, the
semantics of the JavaScript String.split method with a one-character
separator.  Written on character lists so that concrete instances reduce
inside the kernel. -/
def splitOnChar (sep : Char) : List Char → List (List Char)
  | [] => [[]]
  | c :: rest =>
    match splitOnChar sep rest with
    | [] => [[]]
    | cur :: parts => if c == sep then [] :: cur :: parts else (c :: cur) :: parts

/-- Removes leading and trailing whitespace from a character list, the
semantics of the String.trim method. -/
def trimChars (cs : List Char) : List Char :=
  ((cs.dropWhile Char.isWhitespace).reverse.dropWhile Char.isWhitespace).reverse

/-- Models the JavaScript string-to-number coercion for the decimal
integer literals that occur in token payloads; every other string is
treated as NaN (none).  The empty trimmed string coerces to 0. -/
def digitsToInt (cs : List Char) : Option Int :=
  match cs with
  | [] => none
  | _ =>
    cs.foldl
      (fun acc c =>
        match acc with
        | some n => if c.isDigit then some (n * 10 + ((c.toNat : Int) - 48)) else none
        | none => none)
      (some 0)

/-- Models JavaScript ToNumber on a string, restricted to optionally
signed decimal integer literals; none stands for NaN. -/
def jsStringToNumber (s : String) : Option Int :=
  match trimChars s.data with
  | [] => some 0
  | '-' :: rest => (digitsToInt rest).map (fun n => -n)
  | '+' :: rest => digitsToInt rest
  | cs => digitsToInt cs

/-- Models JavaScript ToNumber as used by the multiplication in
isAuthenticated; none stands for NaN.  Singleton arrays coerce through
their only element as JavaScript does via array join; nested arrays are
conservatively mapped to NaN. -/
def toNumber : JsVal → Option Int
  | .jNull => some 0
  | .jBool b => some (if b then 1 else 0)
  | .jNum n => some n
  | .jStr s => jsStringToNumber s
  | .jArr [] => some 0
  | .jArr [.jNull] => some 0
  | .jArr [.jNum n] => some n
  | .jArr [.jStr s] => jsStringToNumber s
  | .jArr _ => none
  | .jObj _ => none

/-- Embeds token.split with the dot separator, index 1: the payload
segment of a JWT, when the token has one. -/
def payloadSegment (token : String) : Option String :=
  ((splitOnChar '.' token.data).map String.mk)[1]?

/-- Embeds isAuthenticated from the JWT helper module.  The composite of
atob and JSON.parse on the payload segment is the parameter decodeJwt,
with none standing for a thrown exception; now is Date.now() in
milliseconds.  A token with no second segment makes atob throw (its
argument stringifies to the 9-character word undefined, which atob
rejects), a null payload makes the property access throw, a payload whose
exp coerces to NaN makes the comparison false. -/
def isAuthenticated (decodeJwt : String → Option JsVal) (s : Storage) (now : Int) : Bool :=
  match getAccessToken s with
  | none => false
  | some token =>
    match payloadSegment token with
    | none => false
    | some seg =>
      match decodeJwt seg with
      | none => false
      | some payload =>
        match getMember payload "exp" with
        | none => false
        | some expProp =>
          match expProp with
          | none => false
          | some v =>
            match toNumber v with
            | none => false
            | some e => decide (now < e * 1000)

/-- Follows the words of claim C8: the token is present, its payload
segment decodes to JSON containing a numeric exp claim, and exp converted
to milliseconds is strictly greater than the current time. -/
def isAuthenticatedSpecClaim (decodeJwt : String → Option JsVal) (s : Storage) (now : Int) : Prop :=
  ∃ token seg payload e,
    getAccessToken s = some token ∧
    payloadSegment token = some seg ∧
    decodeJwt seg = some payload ∧
    getMember payload "exp" = some (some (JsVal.jNum e)) ∧
    now < e * 1000

/-- Concrete token whose payload segment is the base64 encoding of a JSON
object carrying exp as a numeric string rather than a number. -/
def stringExpSegment : String := "eyJleHAiOiI5OTk5OTk5OTk5OTk5OSJ9"

/-- Decode behaviour of atob plus JSON.parse on that payload segment. -/
def stringExpDecode : String → Option JsVal := fun seg =>
  if seg == stringExpSegment then
    some (JsVal.jObj [("exp", JsVal.jStr "99999999999999")])
  else none

/-- Storage holding the token whose exp claim is a numeric string. -/
def stringExpStorage : Storage :=
  [("access_token", "h.eyJleHAiOiI5OTk5OTk5OTk5OTk5OSJ9.s")]

/-- Claim C8: isAuthenticated is total and returns true exactly when an
access token is present, its payload segment decodes to JSON containing a
numeric exp claim, and exp in milliseconds exceeds the current time.  The
code refutes the only-if direction: a payload whose exp claim is a
numeric string, not a number, also authenticates, because the JavaScript
multiplication coerces the string. -/
theorem isAuthenticated_claim_counterexample :
    isAuthenticated stringExpDecode stringExpStorage 0 = true ∧
      ¬ isAuthenticatedSpecClaim stringExpDecode stringExpStorage 0 := by
  constructor
  · decide
  · rintro ⟨t, seg, p, e, h1, h2, h3, h4, h5⟩
    by_cases hseg : seg == stringExpSegment
    · simp only [stringExpDecode, if_pos hseg] at h3
      obtain rfl : JsVal.jObj [("exp", JsVal.jStr "99999999999999")] = p :=
        Option.some.inj h3
      simp [getMember, List.find?] at h4
    · simp [stringExpDecode, hseg] at h3

/-- Claim C8 amended: isAuthenticated is a total function of the stored
tokens, the decode behaviour and the clock, and it returns true if and
only if an access token is present, the token has a payload segment, that
segment decodes to a JSON value whose exp property can be read without
throwing and is present, and the JavaScript numeric coercion of that
property is a number e with e times 1000 strictly above the current time;
in particular a numeric-string exp also authenticates, and any missing,
malformed or expired token yields false. -/
theorem isAuthenticated_characterization (d : String → Option JsVal) (s : Storage) (now : Int) :
    isAuthenticated d s now = true ↔
      ∃ token seg payload v e,
        getAccessToken s = some token ∧
        payloadSegment token = some seg ∧
        d seg = some payload ∧
        getMember payload "exp" = some (some v) ∧
        toNumber v = some e ∧
        now < e * 1000 := by
  unfold isAuthenticated
  cases hA : getAccessToken s with
  | none => simp [hA]
  | some token =>
    cases hB : payloadSegment token with
    | none => simp [hA, hB]
    | some seg =>
      cases hC : d seg with
      | none => simp [hA, hB, hC]
      | some payload =>
        cases hD : getMember payload "exp" with
        | none => simp [hA, hB, hC, hD]
        | some expProp =>
          cases expProp with
          | none => simp [hA, hB, hC, hD]
          | some v =>
            cases hE : toNumber v with
            | none => simp [hA, hB, hC, hD, hE]
            | some e => simp [hA, hB, hC, hD, hE]

/-!
## Axios response interceptor model

Embedding of the AXIOS_INSTANCE response interceptor rejection handler in
http-dashy-client.ts.  The handler inspects the response status, shows
toasts, clears tokens and redirects on 401, and always forwards the
original error as a rejected promise.
-/

/-- Models error.response.data.messages or detail: either an array of
strings or a single string, as the interceptor distinguishes them. -/
inductive ApiMessages where
  | arr (items : List String)
  | one (s : String)

/-- Embeds the Array.isArray branch: arrays are joined with a comma and a
space, a single string is shown as is. -/
def messageText : ApiMessages → String
  | .arr items => String.intercalate ", " items
  | .one s => s

/-- Models the axios error the rejection handler receives: an optional
response status and the optional messages or detail payload. -/
structure HttpError where
  status : Option Int
  messages : Option ApiMessages

/-- Result of running the rejection handler: the localStorage contents,
the window.location.href value, the toasts shown, and the promise
outcome, which for this handler is always a rejection carrying the
original error. -/
structure InterceptOutcome where
  storage : Storage
  href : String
  toasts : List String
  promise : Except HttpError Unit

/-- Embeds the rejection handler of the response interceptor: independent
checks for statuses 400, 401, 403, 404 and 500 followed by a rejection of
the original error.  Status 401 clears both tokens and redirects the
browser to the login route. -/
def onResponseRejected (e : HttpError) (storage0 : Storage) (href0 : String) : InterceptOutcome :=
  let toasts400 :=
    if e.status == some 400 then
      match e.messages with
      | some m => [messageText m]
      | none => []
    else []
  let storage1 := if e.status == some 401 then clearTokens storage0 else storage0
  let href1 := if e.status == some 401 then "/login" else href0
  let toasts403 :=
    if e.status == some 403 then
      [match e.messages with
       | some m => messageText m
       | none => "You do not have permission to perform this action"]
    else []
  let toasts404 :=
    if e.status == some 404 then
      match e.messages with
      | some m => [messageText m]
      | none => []
    else []
  let toasts500 :=
    if e.status == some 500 then ["An unexpected error occurred. Please try again."] else []
  { storage := storage1
    href := href1
    toasts := toasts400 ++ toasts403 ++ toasts404 ++ toasts500
    promise := Except.error e }

/-- Claim C9: on every response with status 401 the interceptor removes
both token entries from localStorage, redirects the browser to the login
route, and still rejects with the original error, for every endpoint,
because the interceptor is installed on the shared axios instance. -/
theorem interceptor_401_clears_and_rejects (e : HttpError) (st : Storage) (href : String)
    (h : e.status = some 401) :
    getItem (onResponseRejected e st href).storage ACCESS_TOKEN_KEY = none ∧
    getItem (onResponseRejected e st href).storage REFRESH_TOKEN_KEY = none ∧
    (onResponseRejected e st href).href = "/login" ∧
    (onResponseRejected e st href).promise = Except.error e := by
  refine ⟨?_, ?_, ?_, ?_⟩ <;>
    simp [onResponseRejected, h, getItem_clearTokens_access, getItem_clearTokens_refresh]

/-- Concrete 401 error used to instantiate the interceptor theorem. -/
def err401 : HttpError := { status := some 401, messages := none }

/-- Concrete storage holding both tokens before the 401 arrives. -/
def storageBefore401 : Storage :=
  [("access_token", "a.b.c"), ("refresh_token", "d.e.f"), ("user_info", "u")]

theorem interceptor_401_clears_and_rejects_witness :
    err401.status = some 401 ∧
    (getItem (onResponseRejected err401 storageBefore401 "/bi/data-viz").storage ACCESS_TOKEN_KEY = none ∧
     getItem (onResponseRejected err401 storageBefore401 "/bi/data-viz").storage REFRESH_TOKEN_KEY = none ∧
     (onResponseRejected err401 storageBefore401 "/bi/data-viz").href = "/login" ∧
     (onResponseRejected err401 storageBefore401 "/bi/data-viz").promise = Except.error err401) :=
  ⟨rfl, interceptor_401_clears_and_rejects err401 storageBefore401 "/bi/data-viz" rfl⟩

/-!
## Synchronous upload handler model

Embedding of handleUpload from the DataVizPage component in
pages/bi/data-viz.tsx.  A JSON-typed file is read and parsed locally; a
parse failure shows a local toast and issues no request, while a parsed
array is wrapped into a rows object before the ingest mutation fires.
Non-JSON files are sent as multipart form data.
-/

/-- Models the selected browser file: name, MIME type and text content. -/
structure UploadFile where
  name : String
  mime : String
  content : String

/-- Observable actions the upload handler can perform. -/
inductive UploadAction where
  | ingest (payload : JsVal)
  | ingestForm (fileName : String)
  | toastErr (msg : String)

/-- True when the action issues a request to the ingest endpoint. -/
def issuesRequest : UploadAction → Bool
  | .ingest _ => true
  | .ingestForm _ => true
  | .toastErr _ => false

/-- Embeds the isJson test: MIME type application/json, or a file name
whose lowercase form ends in the json suffix. -/
def isJsonFile (f : UploadFile) : Bool :=
  f.mime == "application/json" ||
    decide ((f.name.data.map Char.toLower).reverse.take 5 = ".json".data.reverse)

/-- Embeds handleUpload from DataVizPage.  JSON.parse is the parameter
parse, with none standing for a thrown exception, which the catch turns
into a local toast without any request. -/
def handleUpload (parse : String → Option JsVal) (file : Option UploadFile) : List UploadAction :=
  match file with
  | none => []
  | some f =>
    if isJsonFile f then
      match parse f.content with
      | none => [.toastErr "Invalid JSON file"]
      | some parsed =>
        let payload :=
          match parsed with
          | .jArr elems => JsVal.jObj [("rows", JsVal.jArr elems)]
          | other => other
        [.ingest payload]
    else
      [.ingestForm f.name]

/-- Claim C10: a file recognized as JSON whose content fails to parse
produces only the local invalid-file toast; the ingest mutation is never
invoked, so the store is unchanged by a syntactically invalid JSON
upload. -/
theorem upload_invalid_json_no_request (parse : String → Option JsVal) (f : UploadFile)
    (hjson : isJsonFile f = true) (hbad : parse f.content = none) :
    handleUpload parse (some f) = [UploadAction.toastErr "Invalid JSON file"] ∧
    ∀ a ∈ handleUpload parse (some f), issuesRequest a = false := by
  have hmain : handleUpload parse (some f) = [UploadAction.toastErr "Invalid JSON file"] := by
    simp [handleUpload, hjson, hbad]
  refine ⟨hmain, ?_⟩
  intro a ha
  rw [hmain] at ha
  simp at ha
  subst ha
  rfl

/-- Concrete invalid JSON upload used to instantiate the handler theorem. -/
def invalidJsonFile : UploadFile :=
  { name := "invalid.JSON", mime := "text/plain", content := "not valid json" }

/-- Parse behaviour of JSON.parse on the invalid content: it throws. -/
def rejectAllParse : String → Option JsVal := fun _ => none

theorem upload_invalid_json_no_request_witness :
    isJsonFile invalidJsonFile = true ∧
    rejectAllParse invalidJsonFile.content = none ∧
    (handleUpload rejectAllParse (some invalidJsonFile) =
        [UploadAction.toastErr "Invalid JSON file"] ∧
      ∀ a ∈ handleUpload rejectAllParse (some invalidJsonFile), issuesRequest a = false) :=
  ⟨by decide, rfl, upload_invalid_json_no_request rejectAllParse invalidJsonFile (by decide) rfl⟩

/-!
## Measurement store and ingestion executor

The Django backend that implements the Ingestion Executor is not part of
the visible source tree, so the following definitions are modelled from
the specification, sections 3 and 4.2.
-/

/-- Modelled from the spec: a canonical measurement row with device
identifier, metric name, parsed timestamp, nullable numeric value and
nullable free-form tags (section 3); the backend Measurement model is not
in the visible source. -/
structure Measurement where
  device : String
  metric : String
  ts : Int
  value : Option Rat
  tags : Option JsVal

/-- Modelled from the spec: a persisted row is a measurement scoped to
its owning tenant. -/
structure StoredRow where
  tenant : Nat
  m : Measurement

/-- Modelled from the spec: the multi-tenant time-series store. -/
abbrev MeasStore := List StoredRow

/-- Modelled from the spec: the natural key (tenant, device, metric,
timestamp) on which uniqueness is enforced at the store. -/
def naturalKey (r : StoredRow) : Nat × String × String × Int :=
  (r.tenant, r.m.device, r.m.metric, r.m.ts)

/-- Modelled from the spec: whether a row with the given natural key is
already present in the store. -/
def keyPresent (store : MeasStore) (k : Nat × String × String × Int) : Bool :=
  store.any (fun r => decide (naturalKey r = k))

/-- Modelled from the spec: insert-or-ignore of one row, never
insert-or-update; returns the store and the number of rows created, 0 or
1. -/
def insertOrIgnore (store : MeasStore) (r : StoredRow) : MeasStore × Nat :=
  if keyPresent store (naturalKey r) then (store, 0) else (store ++ [r], 1)

/-- Modelled from the spec: bulk insert-or-ignore of one batch scoped to
a tenant, accumulating the created count. -/
def ingestBatch (tenant : Nat) : MeasStore → List Measurement → MeasStore × Nat
  | store, [] => (store, 0)
  | store, m :: rest =>
    let step := insertOrIgnore store { tenant := tenant, m := m }
    let done := ingestBatch tenant step.1 rest
    (done.1, step.2 + done.2)

/-- Splits a list into consecutive batches of the given size; a size of
zero behaves as size one so the split always progresses. -/
def chunks (n : Nat) : List Measurement → List (List Measurement)
  | [] => []
  | m :: rest => (m :: rest.take (n - 1)) :: chunks n (rest.drop (n - 1))
termination_by l => l.length
decreasing_by
  simp only [List.length_cons, List.length_drop]
  omega

/-- Modelled from the spec: runs the batches of one ingest in order,
accumulating the created count across committed batches. -/
def ingestChunks (tenant : Nat) : MeasStore → List (List Measurement) → MeasStore × Nat
  | store, [] => (store, 0)
  | store, b :: rest =>
    let step := ingestBatch tenant store b
    let done := ingestChunks tenant step.1 rest
    (done.1, step.2 + done.2)

/-- Modelled from the spec: ingest(tenant, rows, batchSize) buffers
normalized rows into batches and performs a bulk insert-or-ignore per
batch scoped to the tenant, returning the store and the total count of
rows actually created (section 4.2). -/
def ingest (tenant : Nat) (batchSize : Nat) (rows : List Measurement) (store : MeasStore) :
    MeasStore × Nat :=
  ingestChunks tenant store (chunks batchSize rows)

/-- Claim C2: ingesting a canonical row whose natural key is already
present creates no new row, reports a created count of 0 for it, and
leaves the already-present row untouched: the store is returned exactly
as it was, insert-or-ignore and never insert-or-update. -/
theorem ingest_idempotent_on_natural_key (tenant : Nat) (batchSize : Nat) (m : Measurement)
    (store : MeasStore)
    (h : keyPresent store (tenant, m.device, m.metric, m.ts) = true) :
    ingest tenant batchSize [m] store = (store, 0) := by
  have hkey : keyPresent store (naturalKey { tenant := tenant, m := m }) = true := h
  have hchunks : chunks batchSize [m] = [[m]] := by
    simp [chunks]
  simp [ingest, hchunks, ingestChunks, ingestBatch, insertOrIgnore, hkey]

/-- Concrete measurement and store used to instantiate the idempotent
ingest theorem: the row is already present for tenant 1. -/
def presentRow : Measurement :=
  { device := "dev-1", metric := "temperature", ts := 1735689600, value := some 23.1,
    tags := none }

/-- Store that already holds the concrete row for tenant 1. -/
def storeWithRow : MeasStore := [{ tenant := 1, m := presentRow }]

theorem ingest_idempotent_on_natural_key_witness :
    keyPresent storeWithRow (1, presentRow.device, presentRow.metric, presentRow.ts) = true ∧
    ingest 1 500 [presentRow] storeWithRow = (storeWithRow, 0) := by
  refine ⟨by decide, ?_⟩
  have h := ingest_idempotent_on_natural_key 1 500 presentRow storeWithRow (by decide)
  exact h

/-!
## Row normalizer

The Django backend that implements the Row Normalizer is not part of the
visible source tree, so the following definitions are modelled from the
specification, section 4.1.  Timestamp, number and tag parsing are
environment parameters: the spec only requires that a timestamp parse to
an absolute instant and that a value parse to a finite number.
-/

/-- Modelled from the spec: the raw numeric field of an incoming row,
which either parses as a finite number or does not (non-finite or
unparseable values are stored as absent, since value is nullable). -/
inductive RawNum where
  | fin (q : Rat)
  | bad

/-- Modelled from the spec: the canonical value obtained from a raw
value field; absent or non-finite values become null. -/
def valueOfRaw : Option RawNum → Option Rat
  | some (.fin q) => some q
  | _ => none

/-- Modelled from the spec: one entry of the single-metric JSON object
shape, with recorded_at, optional value and optional tags. -/
structure SeriesEntry where
  recorded_at : String
  value : Option RawNum
  tags : Option JsVal

/-- Modelled from the spec: the single-metric JSON object shape, one
device and metric pair at the top level plus an array of entries that
all inherit them. -/
structure SingleMetricPayload where
  device_id : String
  metric : String
  rows : List SeriesEntry

/-- Modelled from the spec: one element of the flat JSON array shape,
carrying its own textual fields under possibly aliased names, plus raw
value and tags fields. -/
structure FlatRecord where
  fields : List (String × String)
  value : Option RawNum
  tags : Option JsVal

/-- Modelled from the spec: the delimited text shape, a header row of
column names and the data records. -/
structure Csv where
  header : List String
  records : List (List String)

/-- Modelled from the spec: first field of the record that matches one
of the accepted alias names, in alias priority order. -/
def lookupField (fields : List (String × String)) : List String → Option String
  | [] => none
  | a :: rest =>
    match fields.find? (fun p => p.1 == a) with
    | some p => some p.2
    | none => lookupField fields rest

/-- Modelled from the spec: accepted aliases for the device identifier
of a flat record; a location field is usable as device id. -/
def deviceAliases : List String := ["device_id", "device", "location"]

/-- Modelled from the spec: accepted aliases for the metric name of a
flat record. -/
def metricAliases : List String := ["metric", "parameter"]

/-- Modelled from the spec: accepted aliases for the timestamp of a flat
record. -/
def timestampAliases : List String := ["recorded_at", "timestamp", "date_utc"]

/-- Modelled from the spec: validation of one entry of the single-metric
shape; the timestamp must parse to an absolute instant and the inherited
device and metric must be non-empty, otherwise the row is rejected. -/
def parseSeriesEntry (parseTs : String → Option Int) (device metric : String)
    (e : SeriesEntry) : Option Measurement :=
  match parseTs e.recorded_at with
  | none => none
  | some t =>
    if device == "" || metric == "" then none
    else some { device := device, metric := metric, ts := t,
                value := valueOfRaw e.value, tags := e.tags }

/-- Modelled from the spec: validation of one element of the flat array
shape; device, metric and timestamp are resolved through the alias
table, the timestamp must parse and device and metric must be non-empty. -/
def parseFlatRecord (parseTs : String → Option Int) (r : FlatRecord) : Option Measurement :=
  match lookupField r.fields deviceAliases,
        lookupField r.fields metricAliases,
        lookupField r.fields timestampAliases with
  | some d, some mname, some tsStr =>
    match parseTs tsStr with
    | none => none
    | some t =>
      if d == "" || mname == "" then none
      else some { device := d, metric := mname, ts := t,
                  value := valueOfRaw r.value, tags := r.tags }
  | _, _, _ => none

/-- Modelled from the spec: the cell of a record under a named header
column, when the column exists and the record is long enough. -/
def csvCell (header : List String) (record : List String) (name : String) : Option String :=
  (header.findIdx? (fun h => h == name)).bind (fun i => record[i]?)

/-- Modelled from the spec: validation of one record of the delimited
shape; recognized columns are device_id, metric, recorded_at, value and
tags, the tag cell content being itself a JSON-encoded object.  An
unparseable value cell is stored as absent, an unparseable tags cell as
null. -/
def parseCsvRecord (parseTs : String → Option Int) (parseNum : String → Option Rat)
    (parseTags : String → Option JsVal) (header : List String)
    (record : List String) : Option Measurement :=
  match csvCell header record "device_id",
        csvCell header record "metric",
        csvCell header record "recorded_at" with
  | some d, some mname, some tsStr =>
    match parseTs tsStr with
    | none => none
    | some t =>
      if d == "" || mname == "" then none
      else some { device := d, metric := mname, ts := t,
                  value := (csvCell header record "value").bind parseNum,
                  tags := (csvCell header record "tags").bind parseTags }
  | _, _, _ => none

/-- Modelled from the spec: the three input shapes as a tagged union,
dispatched once at the top of normalization (section 9). -/
inductive UploadShape where
  | single (p : SingleMetricPayload)
  | flat (records : List FlatRecord)
  | delimited (c : Csv)

/-- Modelled from the spec: runs the per-row validator over the entries
of one upload, collecting canonical rows in order and counting rejected
rows; a rejected row never aborts the pass. -/
def normalizeRows (p : α → Option Measurement) : List α → List Measurement × Nat
  | [] => ([], 0)
  | e :: rest =>
    let done := normalizeRows p rest
    match p e with
    | some r => (r :: done.1, done.2)
    | none => (done.1, done.2 + 1)

/-- Modelled from the spec: the Row Normalizer, producing the canonical
rows and the reject count for any of the three supported shapes; it is a
total function, so no single malformed row can fail the pass. -/
def normalize (parseTs : String → Option Int) (parseNum : String → Option Rat)
    (parseTags : String → Option JsVal) : UploadShape → List Measurement × Nat
  | .single p => normalizeRows (parseSeriesEntry parseTs p.device_id p.metric) p.rows
  | .flat records => normalizeRows (parseFlatRecord parseTs) records
  | .delimited c =>
    normalizeRows (parseCsvRecord parseTs parseNum parseTags c.header) c.records

theorem normalizeRows_eq (p : α → Option Measurement) (es : List α) :
    normalizeRows p es =
      (es.filterMap p, (es.filter (fun e => (p e).isNone)).length) := by
  induction es with
  | nil => rfl
  | cons e rest ih =>
    cases h : p e <;>
      simp [normalizeRows, List.filterMap_cons, List.filter_cons, h, ih]

theorem length_filterMap_isSome (p : α → Option Measurement) (es : List α) :
    (es.filterMap p).length = (es.filter (fun e => (p e).isSome)).length := by
  induction es with
  | nil => rfl
  | cons e rest ih =>
    cases h : p e <;>
      simp [List.filterMap_cons, List.filter_cons, h, ih]

/-- Claim C3: for each of the three supported shapes, normalization
yields exactly the well-formed rows, in their original relative order
(the output is the filterMap of the per-row validator), the output
length is the number of well-formed rows, and the reject count is
exactly the number of malformed rows; normalization is total, so no
single malformed row aborts the pass. -/
theorem normalize_counts_and_order (parseTs : String → Option Int)
    (parseNum : String → Option Rat) (parseTags : String → Option JsVal) :
    (∀ p : SingleMetricPayload,
      normalize parseTs parseNum parseTags (.single p) =
        (p.rows.filterMap (parseSeriesEntry parseTs p.device_id p.metric),
         (p.rows.filter
            (fun e => (parseSeriesEntry parseTs p.device_id p.metric e).isNone)).length) ∧
      (normalize parseTs parseNum parseTags (.single p)).1.length =
        (p.rows.filter
           (fun e => (parseSeriesEntry parseTs p.device_id p.metric e).isSome)).length) ∧
    (∀ records : List FlatRecord,
      normalize parseTs parseNum parseTags (.flat records) =
        (records.filterMap (parseFlatRecord parseTs),
         (records.filter (fun r => (parseFlatRecord parseTs r).isNone)).length) ∧
      (normalize parseTs parseNum parseTags (.flat records)).1.length =
        (records.filter (fun r => (parseFlatRecord parseTs r).isSome)).length) ∧
    (∀ c : Csv,
      normalize parseTs parseNum parseTags (.delimited c) =
        (c.records.filterMap (parseCsvRecord parseTs parseNum parseTags c.header),
         (c.records.filter
            (fun r => (parseCsvRecord parseTs parseNum parseTags c.header r).isNone)).length) ∧
      (normalize parseTs parseNum parseTags (.delimited c)).1.length =
        (c.records.filter
           (fun r => (parseCsvRecord parseTs parseNum parseTags c.header r).isSome)).length) := by
  refine ⟨fun p => ⟨?_, ?_⟩, fun records => ⟨?_, ?_⟩, fun c => ⟨?_, ?_⟩⟩ <;>
    simp [normalize, normalizeRows_eq, length_filterMap_isSome]

/-!
## Ingestion job manager

The Django backend that implements the Job Manager is not part of the
visible source tree, so the job record and its transition rules are
modelled from the specification, sections 3 and 4.3.
-/

/-- Modelled from the spec: the lifecycle status of an ingestion job. -/
inductive JobStatus where
  | pending
  | processing
  | completed
  | failed
deriving DecidableEq, Repr

/-- Modelled from the spec: an IngestionJob record with identifier,
owning tenant, file name, status, total and processed row counts, and
the error message set only on failure. -/
structure Job where
  id : Nat
  tenant : Nat
  fileName : String
  status : JobStatus
  totalRows : Nat
  processedRows : Nat
  errorMessage : Option String
deriving DecidableEq, Repr

/-- Modelled from the spec: true on the terminal statuses completed and
failed. -/
def isTerminal : JobStatus → Bool
  | .completed => true
  | .failed => true
  | _ => false

/-- Modelled from the spec: the order in which the lifecycle may visit
statuses, pending before processing before a terminal status, with no
way back. -/
def statusReach : JobStatus → JobStatus → Bool
  | .pending, _ => true
  | .processing, .pending => false
  | .processing, _ => true
  | .completed, .completed => true
  | .completed, _ => false
  | .failed, .failed => true
  | .failed, _ => false

/-- Modelled from the spec: the transition rules of section 4.3.  A
worker claims a pending job, progress updates keep the status processing
and move processed_rows forward without passing total_rows, and a
processing job completes or fails; no rule leaves a terminal status. -/
inductive JobStep : Job → Job → Prop where
  | claim (j : Job) (h : j.status = .pending) :
      JobStep j { j with status := .processing }
  | progress (j : Job) (n : Nat) (h : j.status = .processing)
      (hmono : j.processedRows ≤ n) (hle : n ≤ j.totalRows) :
      JobStep j { j with processedRows := n }
  | complete (j : Job) (h : j.status = .processing) :
      JobStep j { j with status := .completed }
  | fail (j : Job) (msg : String) (h : j.status = .processing) :
      JobStep j { j with status := .failed, errorMessage := some msg }

/-- Modelled from the spec: an execution of the job manager is any
finite chain of permitted transitions. -/
abbrev JobSteps : Job → Job → Prop := Relation.ReflTransGen JobStep

theorem statusReach_trans {a b c : JobStatus} (h1 : statusReach a b = true)
    (h2 : statusReach b c = true) : statusReach a c = true := by
  cases a <;> cases b <;> cases c <;> simp_all [statusReach]

theorem jobStep_facts {a b : Job} (h : JobStep a b) :
    a.processedRows ≤ b.processedRows ∧
    b.totalRows = a.totalRows ∧
    statusReach a.status b.status = true ∧
    isTerminal a.status = false := by
  cases h with
  | claim hp => simp [hp, statusReach, isTerminal]
  | progress n hp hmono hle => simp [hp, statusReach, isTerminal, hmono]
  | complete hp => simp [hp, statusReach, isTerminal]
  | fail msg hp => simp [hp, statusReach, isTerminal]

/-- Claim C4: along any execution of an ingestion job the status only
moves forward through pending, processing and a terminal status,
processed_rows is monotonically non-decreasing and, whenever it starts
within total_rows, never exceeds total_rows; and once the status is
terminal no field ever changes again, so every later poll of the job
returns the same terminal snapshot. -/
theorem job_lifecycle_invariants (j j' : Job) (hsteps : JobSteps j j') :
    j.processedRows ≤ j'.processedRows ∧
    (j.processedRows ≤ j.totalRows → j'.processedRows ≤ j'.totalRows) ∧
    statusReach j.status j'.status = true ∧
    (isTerminal j.status = true → j' = j) := by
  induction hsteps with
  | refl =>
    refine ⟨le_refl _, fun h => h, ?_, fun _ => rfl⟩
    cases j.status <;> rfl
  | tail hab hbc ih =>
    obtain ⟨ih1, ih2, ih3, ih4⟩ := ih
    obtain ⟨s1, s2, s3, s4⟩ := jobStep_facts hbc
    refine ⟨le_trans ih1 s1, ?_, statusReach_trans ih3 s3, ?_⟩
    · intro hinit
      have hb := ih2 hinit
      cases hbc with
      | claim hp => simpa using hb
      | progress n hp hmono hle => simpa using hle
      | complete hp => simpa using hb
      | fail msg hp => simpa using hb
    · intro hterm
      exfalso
      have hb := ih4 hterm
      rw [hb, hterm] at s4
      simp at s4

/-- Concrete pending job used to instantiate the lifecycle theorem. -/
def pendingJob : Job :=
  { id := 7, tenant := 1, fileName := "air-quality.json", status := .pending,
    totalRows := 100, processedRows := 0, errorMessage := none }

/-- The same job after a worker claims it. -/
def claimedJob : Job := { pendingJob with status := .processing }

/-- A two-step execution of the concrete job: claim, then a progress
update to 40 rows. -/
def progressedJob : Job := { claimedJob with processedRows := 40 }

theorem job_lifecycle_invariants_witness :
    JobSteps pendingJob progressedJob ∧
    (pendingJob.processedRows ≤ progressedJob.processedRows ∧
      (pendingJob.processedRows ≤ pendingJob.totalRows →
        progressedJob.processedRows ≤ progressedJob.totalRows) ∧
      statusReach pendingJob.status progressedJob.status = true ∧
      (isTerminal pendingJob.status = true → progressedJob = pendingJob)) := by
  have h1 : JobStep pendingJob claimedJob := JobStep.claim pendingJob rfl
  have h2 : JobStep claimedJob progressedJob :=
    JobStep.progress claimedJob 40 rfl (by decide) (by decide)
  have htrace : JobSteps pendingJob progressedJob :=
    Relation.ReflTransGen.head h1 (Relation.ReflTransGen.single h2)
  exact ⟨htrace, job_lifecycle_invariants pendingJob progressedJob htrace⟩

/-- Modelled from the spec: the persisted job table a worker claims
from. -/
abbrev JobTable := List Job

/-- Modelled from the spec: lookup of a job record by its identifier. -/
def findJob (tbl : JobTable) (jid : Nat) : Option Job :=
  tbl.find? (fun j => j.id == jid)

/-- Modelled from the spec: the atomic claim transition of section 4.3,
a single conditional update from pending to processing; when the job is
absent or no longer pending the claim is discarded and the table is left
unchanged.  Workers interleave as atomic actions, so a race of two
claims is their sequential composition in either order. -/
def tryClaim (tbl : JobTable) (jid : Nat) : JobTable × Bool :=
  match findJob tbl jid with
  | none => (tbl, false)
  | some j =>
    if j.status = .pending then
      (tbl.map (fun x => if x.id == jid then { x with status := .processing } else x), true)
    else (tbl, false)

theorem findJob_after_claim (tbl : JobTable) (jid : Nat) (j : Job)
    (h : findJob tbl jid = some j) :
    findJob (tbl.map (fun x => if x.id == jid then { x with status := .processing } else x))
        jid = some { j with status := .processing } := by
  induction tbl with
  | nil => simp [findJob] at h
  | cons x rest ih =>
    by_cases hx : x.id == jid
    · have hj : x = j := by
        simp [findJob, List.find?, hx] at h
        exact h
      subst hj
      simp [findJob, List.find?, hx]
    · simp only [findJob, List.find?, hx] at h
      have ih2 := ih h
      simp only [findJob, List.map, List.find?, hx, if_neg, Bool.false_eq_true,
        not_false_iff, if_false] at ih2 ⊢
      simpa [hx] using ih2

/-- Claim C7: when two workers race to claim one pending job, the first
atomic conditional update succeeds and moves the job to processing, and
the second finds the job no longer pending, so its claim is discarded
and it changes nothing: exactly one worker processes the job. -/
theorem concurrent_claim_exactly_one (tbl : JobTable) (jid : Nat) (j : Job)
    (hfind : findJob tbl jid = some j) (hpend : j.status = .pending) :
    (tryClaim tbl jid).2 = true ∧
    (tryClaim (tryClaim tbl jid).1 jid).2 = false ∧
    (tryClaim (tryClaim tbl jid).1 jid).1 = (tryClaim tbl jid).1 := by
  have h1 : tryClaim tbl jid =
      (tbl.map (fun x => if x.id == jid then { x with status := .processing } else x), true) := by
    simp [tryClaim, hfind, hpend]
  have h2 := findJob_after_claim tbl jid j hfind
  refine ⟨by rw [h1], ?_, ?_⟩ <;>
    · rw [h1]
      simp only [tryClaim, h2]
      simp

/-- Concrete job table holding the pending job and an unrelated job. -/
def raceTable : JobTable :=
  [pendingJob,
   { id := 8, tenant := 2, fileName := "other.csv", status := .completed,
     totalRows := 5, processedRows := 5, errorMessage := none }]

theorem concurrent_claim_exactly_one_witness :
    findJob raceTable 7 = some pendingJob ∧
    pendingJob.status = .pending ∧
    ((tryClaim raceTable 7).2 = true ∧
      (tryClaim (tryClaim raceTable 7).1 7).2 = false ∧
      (tryClaim (tryClaim raceTable 7).1 7).1 = (tryClaim raceTable 7).1) :=
  ⟨by decide, rfl, concurrent_claim_exactly_one raceTable 7 pendingJob (by decide) rfl⟩

/-!
## Scoped query gateway

The Django backend that implements the Query Validator and Rewriter and
the Query Executor is not part of the visible source tree, so the
following definitions are modelled from the specification, sections 4.4,
4.5 and 6.  The UI side of the contract is visible in data-viz.tsx: the
DataVizPage handleExecute callback submits only the query text and a row
limit, so the request carries no tenant field and the tenant comes from
the authenticated session.
-/

/-- Modelled from the spec: the ephemeral query request, raw query text
and an optional row cap; it has no tenant field, matching the request
body built by handleExecute in data-viz.tsx. -/
structure QueryRequest where
  queryText : String
  limit : Option Nat

/-- Modelled from the spec: the authenticated session from which the
tenant identifier is derived; it is never taken from the request. -/
structure Session where
  tenant : Nat

/-- Modelled from the spec: the rewritten, tenant-confined and
limit-bounded form of a validated query: the validated text becomes the
body of a derived subquery and the outer layer pins the tenant and the
row cap. -/
structure SafeQuery where
  inner : String
  tenant : Nat
  limit : Nat

/-- Modelled from the spec: the tabular result of the query executor. -/
structure QueryResult where
  columns : List String
  rows : List (List JsVal)
  count : Nat

/-- Modelled from the spec: the server-side default row cap. -/
def defaultLimit : Nat := 100

/-- Modelled from the spec: the hard maximum row cap applied regardless
of what the caller requested. -/
def hardMaxRows : Nat := 1000

/-- Modelled from the spec: the tenant-identifier column that the outer
result must expose. -/
def tenantColumn : String := "organization_id"

/-- Modelled from the spec: rejection message for a second statement. -/
def multiStatementMsg : String := "Only a single SQL statement is allowed"

/-- Modelled from the spec: rejection message for a statement that does
not begin with the read-only query keyword. -/
def notSelectMsg : String := "Only SELECT statements are allowed"

/-- Modelled from the spec: rejection message for a mutating, DDL or DCL
keyword. -/
def mutatingKeywordMsg : String := "Mutating SQL keywords are not allowed"

/-- Modelled from the spec: execution error when the outer result does
not expose the tenant-identifier column; the fail-closed choice of
section 4.4. -/
def tenantColumnMissingMsg : String :=
  "Query results must expose the organization_id column"

/-- Modelled from the spec: true when the text contains a
statement-terminating delimiter followed by further non-whitespace
content, the second-statement test of section 4.4. -/
def containsSecondStatement (s : String) : Bool :=
  match splitOnChar ';' s.data with
  | [] => false
  | _ :: rest => rest.any (fun part => !(trimChars part).isEmpty)

/-- Splits a character list into maximal runs of letters, used for the
conservative keyword scan. -/
def splitWhen (p : Char → Bool) : List Char → List (List Char)
  | [] => [[]]
  | c :: rest =>
    match splitWhen p rest with
    | [] => [[]]
    | cur :: parts => if p c then [] :: cur :: parts else (c :: cur) :: parts

/-- Modelled from the spec: the mutating, DDL and DCL keywords whose
presence anywhere in the statement is a rejection. -/
def mutatingKeywords : List String :=
  ["INSERT", "UPDATE", "DELETE", "DROP", "ALTER", "CREATE", "TRUNCATE", "GRANT", "REVOKE"]

/-- Modelled from the spec: conservative reject-by-keyword-presence scan
over the uppercased words of the statement. -/
def hasMutatingKeyword (s : String) : Bool :=
  ((splitWhen (fun c => !c.isAlpha) (s.data.map Char.toUpper)).filter
      (fun w => !w.isEmpty)).any
    (fun w => mutatingKeywords.contains (String.mk w))

/-- Modelled from the spec: true when the trimmed statement begins with
the read-only query keyword. -/
def startsWithSelect (s : String) : Bool :=
  ((trimChars s.data).map Char.toUpper).take 6 == "SELECT".data

/-- Modelled from the spec: the validation policy of section 4.4 in
order: exactly one statement, then the read-only leading keyword, then
the conservative mutating-keyword scan; none stands for acceptance. -/
def validateText (q : String) : Option String :=
  if containsSecondStatement q then some multiStatementMsg
  else if !startsWithSelect q then some notSelectMsg
  else if hasMutatingKeyword q then some mutatingKeywordMsg
  else none

/-- Modelled from the spec: validate_and_scope(tenant, rawQuery, limit).
A validated text is wrapped, not edited in place: it becomes the inner
body of a SafeQuery whose outer layer carries the session tenant and the
clamped row limit. -/
def validate_and_scope (tenant : Nat) (req : QueryRequest) : Except String SafeQuery :=
  match validateText req.queryText with
  | some e => Except.error e
  | none =>
    Except.ok
      { inner := req.queryText, tenant := tenant,
        limit := min (req.limit.getD defaultLimit) hardMaxRows }

/-- Modelled from the spec: whether an outer result cell pins the given
tenant identifier. -/
def cellIsTenant : Option JsVal → Int → Bool
  | some (.jNum n), t => n == t
  | _, _ => false

/-- Modelled from the spec: the cell of an outer result row under the
tenant-identifier column, when that column exists. -/
def rowTenantCell (cols : List String) (row : List JsVal) : Option JsVal :=
  (cols.findIdx? (fun c => c == tenantColumn)).bind (fun i => row[i]?)

/-- Modelled from the spec: the query executor running a wrapped query.
The semantics of the inner text over the store is the parameter sem,
returning the outer column list and rows.  When the outer result does
not expose the tenant-identifier column the execution fails closed with
a descriptive error and no rows; otherwise the outer predicate keeps the
rows that pin the session tenant and the outer limit caps the count. -/
def executeScoped (sem : String → MeasStore → List String × List (List JsVal))
    (sq : SafeQuery) (store : MeasStore) : Except String QueryResult :=
  let res := sem sq.inner store
  match res.1.findIdx? (fun c => c == tenantColumn) with
  | none => Except.error tenantColumnMissingMsg
  | some i =>
    let limited :=
      (res.2.filter (fun row => cellIsTenant row[i]? (Int.ofNat sq.tenant))).take sq.limit
    Except.ok { columns := res.1, rows := limited, count := limited.length }

/-- Modelled from the spec: the outcome of one scoped query call, the
returned value and whether the executor ran at all. -/
structure ScopedRun where
  result : Except String QueryResult
  executed : Bool

/-- Modelled from the spec: the Scoped Query path, validation and
rewriting before any execution; a rejection returns without the executor
ever running. -/
def runScopedQuery (sem : String → MeasStore → List String × List (List JsVal))
    (session : Session) (req : QueryRequest) (store : MeasStore) : ScopedRun :=
  match validate_and_scope session.tenant req with
  | Except.error e => { result := Except.error e, executed := false }
  | Except.ok sq => { result := executeScoped sem sq store, executed := true }

/-- Claim C5: any submitted query text containing a second statement, a
statement-terminating delimiter followed by further non-whitespace
content, is rejected by the validator with the specific single-statement
message and the executor never runs. -/
theorem second_statement_rejected_before_execution
    (sem : String → MeasStore → List String × List (List JsVal)) (t : Nat)
    (req : QueryRequest) (store : MeasStore)
    (h : containsSecondStatement req.queryText = true) :
    runScopedQuery sem ⟨t⟩ req store =
      { result := Except.error multiStatementMsg, executed := false } := by
  simp [runScopedQuery, validate_and_scope, validateText, h]

/-- Executor semantics that would return nothing, used to show the
rejection happens before any execution. -/
def semEmpty : String → MeasStore → List String × List (List JsVal) := fun _ _ => ([], [])

/-- The two-statement injection attempt from the spec example. -/
def injectionReq : QueryRequest :=
  { queryText := "SELECT 1; DROP TABLE x", limit := some 1000 }

theorem second_statement_rejected_before_execution_witness :
    containsSecondStatement injectionReq.queryText = true ∧
    runScopedQuery semEmpty ⟨3⟩ injectionReq [] =
      { result := Except.error multiStatementMsg, executed := false } :=
  ⟨by decide, second_statement_rejected_before_execution semEmpty 3 injectionReq [] (by decide)⟩

/-- Claim C6: a validated read-only query whose outer result does not
expose the tenant-identifier column fails at execution time with the
descriptive fail-closed error; the error carries no rows at all, so the
path never silently returns unscoped rows nor partial results alongside
an error. -/
theorem missing_tenant_column_fails_closed
    (sem : String → MeasStore → List String × List (List JsVal)) (t : Nat)
    (req : QueryRequest) (store : MeasStore)
    (hval : validateText req.queryText = none)
    (hcol : (sem req.queryText store).1.findIdx? (fun c => c == tenantColumn) = none) :
    runScopedQuery sem ⟨t⟩ req store =
      { result := Except.error tenantColumnMissingMsg, executed := true } := by
  simp [runScopedQuery, validate_and_scope, hval, executeScoped, hcol]

/-- Executor semantics for a query whose outer result exposes only an
aggregate column, no tenant column. -/
def semNoOrg : String → MeasStore → List String × List (List JsVal) := fun _ _ =>
  (["avg_value"], [[JsVal.jNum 3]])

/-- A validated aggregate-only query. -/
def aggReq : QueryRequest :=
  { queryText := "SELECT AVG(value) AS avg_value FROM bi_iotmeasurement", limit := none }

theorem missing_tenant_column_fails_closed_witness :
    validateText aggReq.queryText = none ∧
    (semNoOrg aggReq.queryText []).1.findIdx? (fun c => c == tenantColumn) = none ∧
    runScopedQuery semNoOrg ⟨4⟩ aggReq [] =
      { result := Except.error tenantColumnMissingMsg, executed := true } :=
  ⟨by decide, rfl,
    missing_tenant_column_fails_closed semNoOrg 4 aggReq [] (by decide) rfl⟩

/-- Claim C1: the scoping predicate is part of the validated, rewritten
query, the tenant it pins comes from the session while the request
carries no tenant field, and therefore every row returned to a caller
pins that caller's own tenant in the tenant-identifier column; two
callers of different tenants running the same query over the same store
can never receive a common row. -/
theorem scoped_query_tenant_confinement
    (sem : String → MeasStore → List String × List (List JsVal))
    (req : QueryRequest) (store : MeasStore) (t1 t2 : Nat) (r1 r2 : QueryResult)
    (h1 : (runScopedQuery sem ⟨t1⟩ req store).result = Except.ok r1)
    (h2 : (runScopedQuery sem ⟨t2⟩ req store).result = Except.ok r2)
    (hne : t1 ≠ t2) :
    (∀ row ∈ r1.rows, cellIsTenant (rowTenantCell r1.columns row) (Int.ofNat t1) = true) ∧
    (∀ row ∈ r1.rows, row ∉ r2.rows) := by
  simp only [runScopedQuery, validate_and_scope] at h1 h2
  cases hv : validateText req.queryText with
  | some e => rw [hv] at h1; simp at h1
  | none =>
    rw [hv] at h1 h2
    simp only [executeScoped] at h1 h2
    cases hidx : (sem req.queryText store).1.findIdx? (fun c => c == tenantColumn) with
    | none => rw [hidx] at h1; simp at h1
    | some i =>
      rw [hidx] at h1 h2
      simp only [Except.ok.injEq] at h1 h2
      subst h1
      subst h2
      constructor
      · intro row hrow
        have h3 := List.take_subset _ _ hrow
        have h4 := (List.mem_filter.mp h3).2
        simpa [rowTenantCell, hidx] using h4
      · intro row hrow1 hrow2
        have g1 := (List.mem_filter.mp (List.take_subset _ _ hrow1)).2
        have g2 := (List.mem_filter.mp (List.take_subset _ _ hrow2)).2
        cases hcell : row[i]? with
        | none => rw [hcell] at g1; simp [cellIsTenant] at g1
        | some v =>
          cases v with
          | jNum n =>
            rw [hcell] at g1 g2
            simp [cellIsTenant] at g1 g2
            exact hne (by omega)
          | jNull => rw [hcell] at g1; simp [cellIsTenant] at g1
          | jBool b => rw [hcell] at g1; simp [cellIsTenant] at g1
          | jStr s => rw [hcell] at g1; simp [cellIsTenant] at g1
          | jArr elems => rw [hcell] at g1; simp [cellIsTenant] at g1
          | jObj fields => rw [hcell] at g1; simp [cellIsTenant] at g1

/-- Executor semantics over a store holding one row for each of two
tenants, both exposed with the tenant column. -/
def semTwoTenants : String → MeasStore → List String × List (List JsVal) := fun _ _ =>
  (["organization_id", "value"],
   [[JsVal.jNum 1, JsVal.jNum 10], [JsVal.jNum 2, JsVal.jNum 20]])

/-- A validated query exposing the tenant column. -/
def orgReq : QueryRequest :=
  { queryText := "SELECT organization_id, value FROM bi_iotmeasurement", limit := some 50 }

/-- The scoped result the caller of tenant 1 receives. -/
def resTenant1 : QueryResult :=
  { columns := ["organization_id", "value"], rows := [[JsVal.jNum 1, JsVal.jNum 10]],
    count := 1 }

/-- The scoped result the caller of tenant 2 receives. -/
def resTenant2 : QueryResult :=
  { columns := ["organization_id", "value"], rows := [[JsVal.jNum 2, JsVal.jNum 20]],
    count := 1 }

theorem scoped_query_tenant_confinement_witness :
    (runScopedQuery semTwoTenants ⟨1⟩ orgReq []).result = Except.ok resTenant1 ∧
    (runScopedQuery semTwoTenants ⟨2⟩ orgReq []).result = Except.ok resTenant2 ∧
    (1 : Nat) ≠ 2 ∧
    ((∀ row ∈ resTenant1.rows,
        cellIsTenant (rowTenantCell resTenant1.columns row) (Int.ofNat 1) = true) ∧
      (∀ row ∈ resTenant1.rows, row ∉ resTenant2.rows)) :=
  ⟨rfl, rfl, by decide,
    scoped_query_tenant_confinement semTwoTenants orgReq [] 1 2 resTenant1 resTenant2
      rfl rfl (by decide)⟩
